import Mathlib

/-!
Verification of an educational single-node relational storage engine
(a paged heap file store with a fixed-width row codec, an in-memory
primary-key index, a persistent catalog, and a command executor).

The Rust source is embedded shallowly:

* machine integers (`i32`, `u8`, `usize`) become `Int`/`Nat`, with the
  range facts that the Rust types enforce stated explicitly where they
  matter;
* `String` payloads of `Field::Text` are modelled as their UTF-8 byte
  sequences (`List Nat`); index keys are likewise byte strings, so the
  key derivation `Integer(v) → decimal string` becomes the decimal
  ASCII bytes of `v`;
* `HashMap`/`BTreeMap` become association lists with lookup, insert and
  remove by key equality (no claim depends on iteration order);
* file I/O becomes explicit state passing: a `Pager` is the list of
  whole pages currently in the heap file, reads past the end yield
  zeroed pages exactly as `Pager::read_page` does for a short file, and
  a write at index `num_pages` extends the file;
* fallible operations return `Except String _`; the one place the
  source turns an `Err` into a panic (`.unwrap()` on `write_page`
  inside `Table::insert_row`) is modelled by an explicit outcome type.
-/

namespace RDBMS

/-- PAGE_SIZE from storage/pager.rs. -/
def PAGE_SIZE : Nat := 4096

/-- HEADER_SIZE from storage/pager.rs. -/
def HEADER_SIZE : Nat := 64

/-- DataType from catalog/schema.rs: Integer, Boolean, Text(max_len). -/
inductive DataType where
  | integer : DataType
  | boolean : DataType
  | text (max_len : Nat) : DataType
deriving DecidableEq

/-- Column from catalog/schema.rs.  The field `is_autoincrement` is present in
the repository (it is constructed by the SQL parser, by the row-serialization
test and read by `Database::validate_and_prepare_row` in engine.rs), though the
snapshot of `schema.rs` predates it. -/
structure Column where
  name : String
  data_type : DataType
  is_primary : Bool
  is_autoincrement : Bool
deriving DecidableEq

/-- Schema from catalog/schema.rs. -/
structure Schema where
  table_name : String
  columns : List Column
deriving DecidableEq

/-- DataType::byte_size from catalog/schema.rs. -/
def DataType.byte_size : DataType → Nat
  | .integer => 4
  | .boolean => 1
  | .text len => len

/-- Schema::row_size from catalog/schema.rs. -/
def Schema.row_size (s : Schema) : Nat :=
  (s.columns.map (fun c => c.data_type.byte_size)).sum

/-- Field from storage/record.rs.  A `Text` payload is its UTF-8 byte
sequence. -/
inductive Field where
  | integer (v : Int) : Field
  | boolean (b : Bool) : Field
  | text (bytes : List Nat) : Field
deriving DecidableEq

/-- Row from storage/record.rs. -/
structure Row where
  fields : List Field
deriving DecidableEq

/-- Little-endian bytes of an `i32`, as in `val.to_le_bytes()` used by
Row::serialize. -/
def i32ToLeBytes (v : Int) : List Nat :=
  let n := (v % 4294967296).toNat
  [n % 256, n / 256 % 256, n / 65536 % 256, n / 16777216 % 256]

/-- Reading an `i32` back from four little-endian bytes, as in
`i32::from_le_bytes` used by Row::deserialize. -/
def i32FromLeBytes (b0 b1 b2 b3 : Nat) : Int :=
  let n := b0 + 256 * b1 + 65536 * b2 + 16777216 * b3
  if n < 2147483648 then (n : Int) else (n : Int) - 4294967296

/-- Bytes a single column contributes in Row::serialize
(storage/record.rs lines 24-49).  A tag mismatch contributes no bytes at
all, exactly as the `if let` in the source silently skips the column. -/
def serializeField (c : Column) (f : Field) : List Nat :=
  match c.data_type, f with
  | .integer, .integer v => i32ToLeBytes v
  | .boolean, .boolean b => [if b then 1 else 0]
  | .text max_len, .text bs =>
      bs.take (min max_len bs.length) ++
        List.replicate (max_len - min max_len bs.length) 0
  | _, _ => []

/-- Column-by-column loop of Row::serialize.  The source indexes
`self.fields[i]` for each column position `i`; the unmatched case where the
row is shorter than the schema is a Rust panic and is never reached by any
claim (all claims fix equal arity). -/
def serializeFields : List Column → List Field → List Nat
  | c :: cs, f :: fs => serializeField c f ++ serializeFields cs fs
  | _, _ => []

/-- Row::serialize from storage/record.rs. -/
def Row.serialize (r : Row) (s : Schema) : List Nat :=
  serializeFields s.columns r.fields

/-- Cursor loop of Row::deserialize (storage/record.rs lines 54-85).  Out of
range byte accesses (a Rust slice panic, never reached on `row_size`-byte
input) read as zero.  The `take_while (b != 0)` trimming of a Text column is
byte-for-byte the source; the final lossy UTF-8 decode is the identity on the
valid byte sequences the engine itself stores. -/
def deserializeFields : List Column → List Nat → List Field
  | [], _ => []
  | c :: cs, bytes =>
    match c.data_type with
    | .integer =>
        Field.integer (i32FromLeBytes (bytes.getD 0 0) (bytes.getD 1 0)
            (bytes.getD 2 0) (bytes.getD 3 0)) :: deserializeFields cs (bytes.drop 4)
    | .boolean =>
        Field.boolean (bytes.getD 0 0 != 0) :: deserializeFields cs (bytes.drop 1)
    | .text max_len =>
        Field.text ((bytes.take max_len).takeWhile (fun b => b != 0)) ::
          deserializeFields cs (bytes.drop max_len)

/-- Row::deserialize from storage/record.rs. -/
def Row.deserialize (bytes : List Nat) (s : Schema) : Row :=
  ⟨deserializeFields s.columns bytes⟩

/-- One field's tag matches one column's data type, together with the range
facts the Rust types `i32` and `u8` enforce. -/
def fieldMatchesType : DataType → Field → Bool
  | .integer, .integer v => decide (-2147483648 ≤ v) && decide (v < 2147483648)
  | .boolean, .boolean _ => true
  | .text _, .text bs => bs.all (fun b => b < 256)
  | _, _ => false

/-- A row is well typed for a schema: same arity, and every field tag matches
the column data type (spec section 3). -/
def rowMatchesSchema (r : Row) (s : Schema) : Bool :=
  r.fields.length == s.columns.length &&
    (List.zip s.columns r.fields).all (fun cf => fieldMatchesType cf.1.data_type cf.2)

/-- A Text field fits its column: its byte string is no longer than the
column's `max_len` and contains no zero byte (so padding and trimming are
inverse to each other).  Non-text fields always fit. -/
def fieldFits : DataType → Field → Bool
  | .text max_len, .text bs => bs.length ≤ max_len && bs.all (fun b => b != 0)
  | _, _ => true

/-- Every Text field of the row fits its column. -/
def rowFits (r : Row) (s : Schema) : Bool :=
  (List.zip s.columns r.fields).all (fun cf => fieldFits cf.1.data_type cf.2)

/-- Page from storage/pager.rs: a PAGE_SIZE byte buffer. -/
structure Page where
  data : List Nat
deriving DecidableEq

/-- Page::new from storage/pager.rs. -/
def Page.new : Page := ⟨List.replicate PAGE_SIZE 0⟩

/-- Page::get_row_offset from storage/pager.rs. -/
def Page.get_row_offset (_p : Page) (slot_index row_size : Nat) : Nat :=
  HEADER_SIZE + slot_index * row_size

/-- Page::is_slot_full from storage/pager.rs:
`data[i / 8] & (1 << i % 8) != 0`.  An out-of-range byte access is a Rust
panic; the model reads zero there and every claim stays in range. -/
def Page.is_slot_full (p : Page) (slot_index : Nat) : Bool :=
  Nat.testBit (p.data.getD (slot_index / 8) 0) (slot_index % 8)

/-- Page::set_slot from storage/pager.rs.  `!(1 << bit)` on a `u8` is
`255 ^^^ (1 <<< bit)` for `bit < 8`. -/
def Page.set_slot (p : Page) (slot_index : Nat) (occupied : Bool) : Page :=
  let byte_idx := slot_index / 8
  let bit_idx := slot_index % 8
  let old := p.data.getD byte_idx 0
  let new_byte :=
    if occupied then old ||| (1 <<< bit_idx)
    else old &&& (255 ^^^ (1 <<< bit_idx))
  ⟨p.data.set byte_idx new_byte⟩

/-- Pager from storage/pager.rs, as the sequence of whole pages in the heap
file (`file_length = pages.length * PAGE_SIZE`). -/
structure Pager where
  pages : List Page
deriving DecidableEq

/-- Pager::num_pages: `file_length / PAGE_SIZE`. -/
def Pager.num_pages (pg : Pager) : Nat := pg.pages.length

/-- Pager::read_page: reading past the end of the file leaves the zeroed
buffer untouched, hence the zero page as default. -/
def Pager.read_page (pg : Pager) (i : Nat) : Page := pg.pages.getD i Page.new

/-- Pager::write_page: an in-range write replaces the page; a write at or
past `num_pages` extends the file to `(i + 1) * PAGE_SIZE` bytes, any hole
reading back as zeros. -/
def Pager.write_page (pg : Pager) (i : Nat) (p : Page) : Pager :=
  if i < pg.pages.length then ⟨pg.pages.set i p⟩
  else ⟨pg.pages ++ List.replicate (i - pg.pages.length) Page.new ++ [p]⟩

/-- Decimal ASCII digits of a natural number (fuel-based long division, the
digits of `n.to_string()`). -/
def natDecAux : Nat → Nat → List Nat
  | _, 0 => []
  | n, fuel + 1 =>
    if n < 10 then [n + 48] else natDecAux (n / 10) fuel ++ [n % 10 + 48]

/-- Decimal ASCII bytes of a natural number. -/
def natToDecBytes (n : Nat) : List Nat := natDecAux n (n + 1)

/-- UTF-8 bytes of `v.to_string()` for an `i32`: decimal digits with a
leading minus sign when negative. -/
def intToDecBytes (v : Int) : List Nat :=
  if v < 0 then 45 :: natToDecBytes (-v).toNat else natToDecBytes v.toNat

/-- Bytes of `v.to_string()` for a `bool`: "true" or "false". -/
def boolToBytes (b : Bool) : List Nat :=
  if b then [116, 114, 117, 101] else [102, 97, 108, 115, 101]

/-- Key derivation used by Table::load_index (storage/mod.rs lines 96-100)
and by the Select fast path (engine.rs lines 253-257): `Integer(v)` to its
decimal string, `Text(v)` to the string itself, `Boolean(v)` to
"true"/"false". -/
def fieldKey : Field → List Nat
  | .integer v => intToDecBytes v
  | .text bs => bs
  | .boolean b => boolToBytes b

/-- ASCII bytes of a Lean string literal (used to spell out Rust's Debug
output below). -/
def strBytes (s : String) : List Nat := s.data.map Char.toNat

/-- Debug formatting of a Field as produced by the Delete arm's
`format!` with the Debug specifier at engine.rs line 140:
`Integer(1)`, `Boolean(true)`, `Text("x")` (string escapes do not
arise for the inputs considered).  Note this differs from `fieldKey`. -/
def fieldDebugKey : Field → List Nat
  | .integer v => strBytes "Integer(" ++ intToDecBytes v ++ [41]
  | .boolean b => strBytes "Boolean(" ++ boolToBytes b ++ [41]
  | .text bs => strBytes "Text(" ++ [34] ++ bs ++ [34, 41]

/-- PrimaryIndex from index/mod.rs: a BTreeMap from stringified PK to
(page_index, slot_index), modelled as an association list (no claim
depends on iteration order). -/
structure PrimaryIndex where
  map : List (List Nat × Nat × Nat)
deriving DecidableEq

/-- PrimaryIndex::new. -/
def PrimaryIndex.new : PrimaryIndex := ⟨[]⟩

/-- BTreeMap::contains_key. -/
def PrimaryIndex.contains_key (ix : PrimaryIndex) (k : List Nat) : Bool :=
  ix.map.any (fun e => e.1 == k)

/-- BTreeMap::get, returning the (page, slot) pair. -/
def PrimaryIndex.get (ix : PrimaryIndex) (k : List Nat) : Option (Nat × Nat) :=
  (ix.map.find? (fun e => e.1 == k)).map (fun e => e.2)

/-- PrimaryIndex::insert from index/mod.rs: duplicate keys are rejected
with a "Duplicate key violation" error (the message's key interpolation is
elided: keys are byte strings in the model). -/
def PrimaryIndex.insert (ix : PrimaryIndex) (k : List Nat) (page_idx slot_idx : Nat) :
    Except String PrimaryIndex :=
  if ix.contains_key k then .error "Duplicate key violation: key already exists"
  else .ok ⟨(k, page_idx, slot_idx) :: ix.map⟩

/-- BTreeMap::remove, used by the Delete arm. -/
def PrimaryIndex.remove (ix : PrimaryIndex) (k : List Nat) : PrimaryIndex :=
  ⟨ix.map.filter (fun e => e.1 != k)⟩

/-- Table from storage/mod.rs. -/
structure Table where
  pager : Pager
  schema : Schema
  index : PrimaryIndex
deriving DecidableEq

/-- The `max_slots` expression `(PAGE_SIZE - HEADER_SIZE) / row_size`
recomputed throughout storage/mod.rs and engine.rs.  Rust panics when
`row_size = 0`; claims relying on slot arithmetic assume a positive row
size. -/
def Schema.max_slots (s : Schema) : Nat := (PAGE_SIZE - HEADER_SIZE) / s.row_size

/-- The byte slice `page.data[offset..offset + row_size]` of one slot. -/
def rowBytesAt (page : Page) (s_idx : Nat) (schema : Schema) : List Nat :=
  (page.data.drop (page.get_row_offset s_idx schema.row_size)).take schema.row_size

/-- The in-place byte splice `data[offset..offset + bytes.length].copy_from_slice(bytes)`. -/
def writeBytes (data : List Nat) (offset : Nat) (bytes : List Nat) : List Nat :=
  data.take offset ++ bytes ++ data.drop (offset + bytes.length)

/-- Modelled from the spec: `Table::get_row(page, slot)` is absent from the
snapshot of storage/mod.rs (engine.rs calls it); per spec section 4.6 it is
random access — read the page and deserialize the slot's bytes. -/
def Table.get_row (t : Table) (p_idx s_idx : Nat) : Row :=
  Row.deserialize (rowBytesAt (t.pager.read_page p_idx) s_idx t.schema) t.schema

/-- Modelled from the spec: `Table::delete_row(page, slot)` is absent from
the snapshot of storage/mod.rs (engine.rs calls it); per spec section 4.6 it
reads the page, clears the slot bit and writes the page back. -/
def Table.delete_row (t : Table) (p_idx s_idx : Nat) : Table :=
  let page := t.pager.read_page p_idx
  { t with pager := t.pager.write_page p_idx (page.set_slot s_idx false) }

/-- Modelled from the spec: `Table::update_row(page, slot, new_row)` is
absent from the snapshot of storage/mod.rs (engine.rs calls it); per spec
section 4.6 it serializes the new row, overwrites the slot bytes in place
(slot bit stays set) and writes the page back. -/
def Table.update_row (t : Table) (p_idx s_idx : Nat) (row : Row) : Table :=
  let page := t.pager.read_page p_idx
  let offset := page.get_row_offset s_idx t.schema.row_size
  let bytes := row.serialize t.schema
  { t with pager := t.pager.write_page p_idx ⟨writeBytes page.data offset bytes⟩ }

/-- Table::load_index from storage/mod.rs: if the schema has a primary-key
column, walk every live slot in (page, slot) order, derive the stringified
key and insert it into the index, silently discarding duplicate-key
errors (`let _ = self.index.insert(...)`). -/
def Table.load_index (t : Table) : Table :=
  match t.schema.columns.findIdx? (fun c => c.is_primary) with
  | none => t
  | some col_idx =>
    let ms := t.schema.max_slots
    let ix := (List.range t.pager.num_pages).foldl (fun ix p_idx =>
      let page := t.pager.read_page p_idx
      (List.range ms).foldl (fun ix s_idx =>
        if page.is_slot_full s_idx then
          let row := Row.deserialize (rowBytesAt page s_idx t.schema) t.schema
          let pk_value := fieldKey (row.fields.getD col_idx (Field.integer 0))
          match ix.insert pk_value p_idx s_idx with
          | .ok ix2 => ix2
          | .error _ => ix
        else ix) ix) t.index
    { t with index := ix }

/-- First `i ≥ start` with `p i`, searching `fuel` candidates: the
`for … if … break` loops of Table::insert_row. -/
def firstSuchThat (p : Nat → Bool) : Nat → Nat → Option Nat
  | _, 0 => none
  | i, fuel + 1 => if p i then some i else firstSuchThat p (i + 1) fuel

/-- Inner loop of Table::insert_row: first slot of the page whose bitmap
bit is clear, among slots `0..max_slots`. -/
def Page.first_free_slot (page : Page) (ms : Nat) : Option Nat :=
  firstSuchThat (fun s => !(page.is_slot_full s)) 0 ms

/-- Outer loop of Table::insert_row: scan pages from index `i` for `fuel`
pages, returning the first page holding a free slot together with that
slot. -/
def findFreePage (pg : Pager) (ms : Nat) : Nat → Nat → Option (Nat × Nat)
  | _, 0 => none
  | i, fuel + 1 =>
    match (pg.read_page i).first_free_slot ms with
    | some s => some (i, s)
    | none => findFreePage pg ms (i + 1) fuel

/-- The (page, slot) position Table::insert_row writes to: the first free
slot found by the page/slot scan, or slot 0 of a fresh page at index
`num_pages` when every existing slot is full. -/
def Table.insert_locate (t : Table) : Nat × Nat :=
  match findFreePage t.pager t.schema.max_slots 0 t.pager.num_pages with
  | some pos => pos
  | none => (t.pager.num_pages, 0)

/-- Result of Table::insert_row.  The source unwraps the write_page result
(storage/mod.rs line 53), so a failed page write is a panic, not a returned
error; `panicked` records exactly that. -/
inductive InsertOutcome where
  | ok (pager : Pager)
  | ioError (e : String)
  | panicked
deriving DecidableEq

/-- Table::insert_row from storage/mod.rs, parametrised by whether the
write-back succeeds.  The located page is `read_page pos.1` in both
branches: for a fresh page this is the zero page, which is what
`Page::new()` yields in the source.  Slot bit set, row bytes copied at
`HEADER_SIZE + slot * row_size`, then `write_page(...).unwrap()`. -/
def Table.insert_row (t : Table) (row : Row) (write_ok : Bool) : InsertOutcome :=
  let serialized := row.serialize t.schema
  let pos := t.insert_locate
  let page := t.pager.read_page pos.1
  let page1 := page.set_slot pos.2 true
  let offset := page1.get_row_offset pos.2 t.schema.row_size
  let page2 : Page := ⟨writeBytes page1.data offset serialized⟩
  if write_ok then .ok (t.pager.write_page pos.1 page2) else .panicked

/-- Table::scan_rows from storage/mod.rs: every live slot in
(page ascending, slot ascending) order, deserialized. -/
def Table.scan_rows (t : Table) : List Row :=
  (List.range t.pager.num_pages).flatMap (fun p_idx =>
    (List.range t.schema.max_slots).filterMap (fun s_idx =>
      if (t.pager.read_page p_idx).is_slot_full s_idx then
        some (Row.deserialize (rowBytesAt (t.pager.read_page p_idx) s_idx t.schema) t.schema)
      else none))

/-- Operator from sql/mod.rs. -/
inductive Operator where
  | eq : Operator
  | notEq : Operator
  | greaterThan : Operator
  | lessThan : Operator
deriving DecidableEq

/-- Filter from sql/mod.rs. -/
structure Filter where
  column_name : String
  operator : Operator
  value : Field
deriving DecidableEq

/-- JoinClause from sql/mod.rs. -/
structure JoinClause where
  left_column : String
  right_table : String
  right_column : String
deriving DecidableEq

/-- Command from sql/mod.rs. -/
inductive Command where
  | createTable (name : String) (columns : List Column) : Command
  | insert (table_name : String) (row : Row) : Command
  | select (table_name : String) (join : Option JoinClause) (filter : Option Filter) : Command
  | update (table_name : String) (assignments : List (String × Field)) (filter : Option Filter) : Command
  | delete (table_name : String) (filter : Option Filter) : Command
  | dropTable (table_name : String) : Command

/-- QueryResult from sql/mod.rs: Message or Data (columns come as their
names). -/
inductive QueryResult where
  | message (s : String) : QueryResult
  | data (columns : List String) (rows : List (List Field)) : QueryResult
deriving DecidableEq

/-- Row::row_matches_filter from storage/record.rs: locate the column by
name (unknown name evaluates false), then compare with the operator; the
ordering operators apply to Integer pairs only. -/
def Row.row_matches_filter (row : Row) (f : Filter) (schema : Schema) : Bool :=
  match schema.columns.findIdx? (fun c => c.name == f.column_name) with
  | none => false
  | some col_idx =>
    let actual := row.fields.getD col_idx (Field.integer 0)
    match f.operator with
    | .eq => actual == f.value
    | .notEq => actual != f.value
    | .greaterThan =>
      match actual, f.value with
      | .integer a, .integer b => decide (a > b)
      | _, _ => false
    | .lessThan =>
      match actual, f.value with
      | .integer a, .integer b => decide (a < b)
      | _, _ => false

/-- Catalog from catalog/mod.rs: HashMaps become association lists (no
claim depends on iteration order); the backing file path is not part of the
model. -/
structure Catalog where
  tables : List (String × Schema)
  sequences : List (String × Int)
deriving DecidableEq

/-- HashMap::get. -/
def assocGet {α : Type} (l : List (String × α)) (k : String) : Option α :=
  (l.find? (fun e => e.1 == k)).map (fun e => e.2)

/-- HashMap::insert (replace when present, append otherwise). -/
def assocInsert {α : Type} (l : List (String × α)) (k : String) (v : α) : List (String × α) :=
  if l.any (fun e => e.1 == k) then l.map (fun e => if e.1 == k then (k, v) else e)
  else l ++ [(k, v)]

/-- Catalog::add_table from catalog/mod.rs: insert the schema under its
name and `entry(name).or_insert(0)` on the sequences; `save()` persists the
catalog (persistence itself has no observable effect inside the model). -/
def Catalog.add_table (c : Catalog) (schema : Schema) : Catalog :=
  let name := schema.table_name
  { tables := assocInsert c.tables name schema
    sequences :=
      if c.sequences.any (fun e => e.1 == name) then c.sequences
      else c.sequences ++ [(name, 0)] }

/-- Catalog::get_next_id from catalog/mod.rs lines 46-52: read the current
counter (default 0), add one, store it, persist, and return the new
value. -/
def Catalog.get_next_id (c : Catalog) (table_name : String) : Int × Catalog :=
  let current_id := (assocGet c.sequences table_name).getD 0
  let next_id := current_id + 1
  (next_id, { c with sequences := assocInsert c.sequences table_name next_id })

/-- Database from engine.rs: the catalog plus the data directory's heap
files, one pager per table name. -/
structure Database where
  catalog : Catalog
  files : List (String × Pager)
deriving DecidableEq

/-- Building the transient Table of one command: `Pager::open` creates an
empty file when absent, the schema is cloned, the index starts fresh. -/
def Database.openTable (db : Database) (name : String) (schema : Schema) : Table :=
  ⟨(assocGet db.files name).getD ⟨[]⟩, schema, PrimaryIndex.new⟩

/-- Writing a table's heap file back into the data directory. -/
def Database.putFile (db : Database) (name : String) (pg : Pager) : Database :=
  { db with files := assocInsert db.files name pg }

/-- Tag-only type check of Database::validate_and_prepare_row (engine.rs
lines 415-420): a `match` on the constructor pair. -/
def tagMatches : DataType → Field → Bool
  | .integer, .integer _ => true
  | .boolean, .boolean _ => true
  | .text _, .text _ => true
  | _, _ => false

/-- Database::validate_and_prepare_row from engine.rs lines 364-433.  When
the schema has an autoincrement column, `get_next_id` runs first (so the
counter advances even if validation then fails) and the issued id either
overrides the provided value (full arity) or is inserted at the column's
index (arity one less); then the arity and the field tags are checked.
Interpolated error texts are abbreviated where they embed numbers. -/
def Database.validate_and_prepare_row (db : Database) (table_name : String)
    (provided_fields : List Field) : Except String (Database × Row) :=
  match assocGet db.catalog.tables table_name with
  | none => .error ("Table " ++ table_name ++ " not found")
  | some schema =>
    let step : Except String (Database × List Field) :=
      match schema.columns.findIdx? (fun c => c.is_autoincrement) with
      | some auto_idx =>
        let r := db.catalog.get_next_id table_name
        let db1 := { db with catalog := r.2 }
        let auto_field := Field.integer r.1
        if provided_fields.length == schema.columns.length then
          .ok (db1, provided_fields.set auto_idx auto_field)
        else if provided_fields.length == schema.columns.length - 1 then
          .ok (db1, List.insertIdx auto_idx auto_field provided_fields)
        else .error "Column count mismatch"
      | none => .ok (db, provided_fields)
    match step with
    | .error e => .error e
    | .ok (db1, final_fields) =>
      if final_fields.length != schema.columns.length then
        .error ("Table " ++ table_name ++ " expects a different column count")
      else
        match (List.zip schema.columns final_fields).find?
            (fun cf => !tagMatches cf.1.data_type cf.2) with
        | some cf => .error ("Type mismatch for column " ++ cf.1.name)
        | none => .ok (db1, ⟨final_fields⟩)

/-- CreateTable arm of Database::execute (engine.rs lines 32-48): the only
validation is that the name is unused; the column list is taken as given. -/
def Database.executeCreateTable (db : Database) (name : String) (columns : List Column) :
    Except String (Database × QueryResult) :=
  let schema : Schema := ⟨name, columns⟩
  match assocGet db.catalog.tables name with
  | some _ => .error ("Table " ++ name ++ " already exists")
  | none =>
    .ok ({ db with catalog := db.catalog.add_table schema },
      .message ("Table " ++ name ++ " created."))

/-- Insert arm of Database::execute (engine.rs lines 50-78): fetch schema,
open the table, warm the index, validate and prepare the row, then
Table::insert_row with a succeeding page write.  The success message's
Debug repr of the row is elided. -/
def Database.executeInsert (db : Database) (table_name : String) (row : Row) :
    Except String (Database × QueryResult) :=
  match assocGet db.catalog.tables table_name with
  | none => .error ("Table " ++ table_name ++ " not found")
  | some schema =>
    let table := (db.openTable table_name schema).load_index
    match db.validate_and_prepare_row table_name row.fields with
    | .error e => .error e
    | .ok (db1, prepared) =>
      match table.insert_row prepared true with
      | .ok pager1 => .ok (db1.putFile table_name pager1, .message "Inserted 1 row")
      | .ioError e => .error e
      | .panicked => .error "panic"

/-- The `map_or(true, ...)` filter test shared by the Update and Delete
target scans. -/
def filterKeeps (filter : Option Filter) (row : Row) (schema : Schema) : Bool :=
  match filter with
  | none => true
  | some f => row.row_matches_filter f schema

/-- Target scan shared verbatim by the Update and Delete arms (engine.rs
lines 119-132 and 177-190): every live slot whose row passes the filter,
in (page ascending, slot ascending) order. -/
def Table.compute_targets (t : Table) (filter : Option Filter) : List (Nat × Nat × Row) :=
  (List.range t.pager.num_pages).flatMap (fun p_idx =>
    (List.range t.schema.max_slots).filterMap (fun s_idx =>
      if (t.pager.read_page p_idx).is_slot_full s_idx then
        let row := t.get_row p_idx s_idx
        if filterKeeps filter row t.schema then some (p_idx, s_idx, row) else none
      else none))

/-- Per-row assignment loop of the Update arm (engine.rs lines 194-207):
resolve each column name (error when absent), refuse primary-key columns,
otherwise overwrite the field. -/
def applyAssignments (schema : Schema) (assignments : List (String × Field)) (row : Row) :
    Except String Row :=
  match assignments with
  | [] => .ok row
  | (col_name, new_val) :: rest =>
    match schema.columns.findIdx? (fun c => c.name == col_name) with
    | none => .error ("Column " ++ col_name ++ " not found")
    | some col_idx =>
      if (schema.columns.getD col_idx ⟨"", DataType.integer, false, false⟩).is_primary then
        .error "Updating Primary Key is not allowed"
      else applyAssignments schema rest ⟨row.fields.set col_idx new_val⟩

/-- Write-back loop of the Update arm (engine.rs lines 193-213): apply the
assignments to each target row, write it back, count it; the first failing
assignment aborts the whole command. -/
def applyUpdatesLoop (assignments : List (String × Field)) :
    Table → List (Nat × Nat × Row) → Nat → Except String (Table × Nat)
  | t, [], n => .ok (t, n)
  | t, (p_idx, s_idx, row) :: rest, n =>
    match applyAssignments t.schema assignments row with
    | .error e => .error e
    | .ok row1 => applyUpdatesLoop assignments (t.update_row p_idx s_idx row1) rest (n + 1)

/-- Update arm of Database::execute (engine.rs lines 152-219). -/
def Database.executeUpdate (db : Database) (table_name : String)
    (assignments : List (String × Field)) (filter : Option Filter) :
    Except String (Database × QueryResult) :=
  match assocGet db.catalog.tables table_name with
  | none => .error "Table not found"
  | some schema =>
    let table := (db.openTable table_name schema).load_index
    let targets := table.compute_targets filter
    match applyUpdatesLoop assignments table targets 0 with
    | .error e => .error e
    | .ok r =>
      .ok (db.putFile table_name r.1.pager,
        .message ("Updated " ++ toString r.2 ++ " rows."))

/-- Deletion loop of the Delete arm (engine.rs lines 135-144): delete each
target's slot, then — when the schema has a primary-key column — remove
`format!` with the Debug specifier of the row's PK field from the index.
Note the removal key is the Debug rendering (`fieldDebugKey`), not the
`fieldKey` stringification that Table::load_index used to build the
index. -/
def deleteLoop : Table → List (Nat × Nat × Row) → Nat → Table × Nat
  | t, [], n => (t, n)
  | t, (p_idx, s_idx, row) :: rest, n =>
    let t1 := t.delete_row p_idx s_idx
    let t2 :=
      match t1.schema.columns.findIdx? (fun c => c.is_primary) with
      | some pk_idx =>
        let pk_val := fieldDebugKey (row.fields.getD pk_idx (Field.integer 0))
        { t1 with index := t1.index.remove pk_val }
      | none => t1
    deleteLoop t2 rest (n + 1)

/-- Delete arm of Database::execute (engine.rs lines 100-150). -/
def Database.executeDelete (db : Database) (table_name : String) (filter : Option Filter) :
    Except String (Database × QueryResult) :=
  match assocGet db.catalog.tables table_name with
  | none => .error "Table not found"
  | some schema =>
    let table := (db.openTable table_name schema).load_index
    let targets := table.compute_targets filter
    let r := deleteLoop table targets 0
    .ok (db.putFile table_name r.1.pager,
      .message ("Deleted " ++ toString r.2 ++ " rows."))

/-- Result assembly of the Select arm (engine.rs lines 348-359): an empty
row set becomes `Message("No rows found.")`, otherwise Data with the column
names; the Bool records the `used_index` flag of the source. -/
def selectFinish (columns : List Column) (final_rows : List Row) (used : Bool) :
    Except String (QueryResult × Bool) :=
  if final_rows.isEmpty then .ok (.message "No rows found.", used)
  else .ok (.data (columns.map (fun c => c.name)) (final_rows.map (fun r => r.fields)), used)

/-- Slow path of the Select arm (engine.rs lines 277-346): scan, filter,
then the optional nested-loop inner join (the right table is opened without
index warmup). -/
def Database.selectSlowPath (db : Database) (table : Table) (table_name : String)
    (join : Option JoinClause) (filter : Option Filter) :
    Except String (QueryResult × Bool) :=
  let schema := table.schema
  let rows := table.scan_rows
  let rows :=
    match filter with
    | some f => rows.filter (fun r => r.row_matches_filter f schema)
    | none => rows
  match join with
  | some join_info =>
    match assocGet db.catalog.tables join_info.right_table with
    | none => .error ("Table " ++ join_info.right_table ++ " not found")
    | some right_schema =>
      let right_table : Table :=
        ⟨(assocGet db.files join_info.right_table).getD ⟨[]⟩, right_schema, PrimaryIndex.new⟩
      let right_rows := right_table.scan_rows
      match schema.columns.findIdx? (fun c => c.name == join_info.left_column) with
      | none =>
        .error ("Column " ++ join_info.left_column ++ " not found in table " ++ table_name)
      | some left_col_idx =>
        match right_schema.columns.findIdx? (fun c => c.name == join_info.right_column) with
        | none =>
          .error ("Column " ++ join_info.right_column ++ " not found in table " ++
            join_info.right_table)
        | some right_col_idx =>
          let final_rows := rows.flatMap (fun row_a =>
            right_rows.filterMap (fun row_b =>
              if row_a.fields.getD left_col_idx (Field.integer 0) ==
                  row_b.fields.getD right_col_idx (Field.integer 0) then
                some (Row.mk (row_a.fields ++ row_b.fields))
              else none))
          selectFinish (schema.columns ++ right_schema.columns) final_rows false
  | none => selectFinish schema.columns rows false

/-- Select arm of Database::execute (engine.rs lines 221-360).  The fast
path is entered iff the join is absent, a filter is present, the schema has
a primary-key column whose name equals the filter's column, and the
operator is equality; it then looks the stringified filter value up in the
warmed index and emits the pointed-to row, or nothing. -/
def Database.executeSelect (db : Database) (table_name : String)
    (join : Option JoinClause) (filter : Option Filter) :
    Except String (QueryResult × Bool) :=
  match assocGet db.catalog.tables table_name with
  | none => .error ("Table " ++ table_name ++ " not found")
  | some schema =>
    let table := (db.openTable table_name schema).load_index
    match join, filter with
    | none, some f =>
      match schema.columns.find? (fun c => c.is_primary) with
      | some pk =>
        if f.column_name == pk.name && f.operator == Operator.eq then
          let key := fieldKey f.value
          let final_rows :=
            match table.index.get key with
            | some pos => [table.get_row pos.1 pos.2]
            | none => []
          selectFinish schema.columns final_rows true
        else db.selectSlowPath table table_name join filter
      | none => db.selectSlowPath table table_name join filter
    | _, _ => db.selectSlowPath table table_name join filter

/-- DropTable arm of Database::execute (engine.rs lines 80-98). -/
def Database.executeDropTable (db : Database) (table_name : String) :
    Except String (Database × QueryResult) :=
  if db.catalog.tables.any (fun e => e.1 == table_name) then
    .ok ({ catalog := ⟨db.catalog.tables.filter (fun e => e.1 != table_name),
             db.catalog.sequences.filter (fun e => e.1 != table_name)⟩,
           files := db.files.filter (fun e => e.1 != table_name) },
      .message ("Table " ++ table_name ++ " dropped."))
  else .error ("Table " ++ table_name ++ " not found")

/-- Database::execute from engine.rs: dispatch on the command.  The Select
arm's internal `used_index` flag is dropped here, exactly as the source
only prints it. -/
def Database.execute (db : Database) : Command → Except String (Database × QueryResult)
  | .createTable name columns => db.executeCreateTable name columns
  | .insert tn row => db.executeInsert tn row
  | .select tn join filter => (db.executeSelect tn join filter).map (fun r => (db, r.1))
  | .update tn a f => db.executeUpdate tn a f
  | .delete tn f => db.executeDelete tn f
  | .dropTable tn => db.executeDropTable tn

/-- Decidable equality for `Except` results, so that concrete runs of the
executor can be checked by `decide`. -/
instance {ε α : Type} [DecidableEq ε] [DecidableEq α] : DecidableEq (Except ε α) := fun a b =>
  match a, b with
  | .ok x, .ok y =>
    if h : x = y then .isTrue (by rw [h]) else .isFalse (fun hx => h (Except.ok.inj hx))
  | .error x, .error y =>
    if h : x = y then .isTrue (by rw [h]) else .isFalse (fun hx => h (Except.error.inj hx))
  | .ok _, .error _ => .isFalse (fun hx => Except.noConfusion hx)
  | .error _, .ok _ => .isFalse (fun hx => Except.noConfusion hx)

/-! Predicates used to state the claims. -/

/-- Position (p, s) is a free slot of an existing page: the page index is
below `num_pages`, the slot index below `max_slots`, and the bitmap bit is
clear. -/
def Table.slot_free (t : Table) (p s : Nat) : Prop :=
  p < t.pager.num_pages ∧ s < t.schema.max_slots ∧
    (t.pager.read_page p).is_slot_full s = false

/-- The fast-path condition of the Select arm: no join, a filter present,
the schema has a primary-key column (the first, per `find?`) whose name is
the filter's column, and the operator is equality. -/
def fastPathCond (schema : Schema) (join : Option JoinClause) (filter : Option Filter) : Prop :=
  join = none ∧ ∃ f, filter = some f ∧
    ∃ pk, schema.columns.find? (fun c => c.is_primary) = some pk ∧
      f.column_name = pk.name ∧ f.operator = Operator.eq

/-- Catalog state after `k` successive `get_next_id` calls for one table. -/
def iterNextId (c : Catalog) (name : String) : Nat → Catalog
  | 0 => c
  | k + 1 => ((iterNextId c name k).get_next_id name).2

/-! Concrete fixtures used by the evaluation theorems and witnesses. -/

/-- Schema of the spec's running example: `users (id INT PRIMARY KEY,
name VARCHAR(16))`. -/
def usersSchema : Schema :=
  ⟨"users", [⟨"id", .integer, true, false⟩, ⟨"name", .text 16, false, false⟩]⟩

/-- Fresh database whose catalog holds `users` and whose data directory is
empty. -/
def usersDb0 : Database := ⟨⟨[("users", usersSchema)], [("users", 0)]⟩, []⟩

/-- Row (1, "alice"). -/
def aliceRow : Row := ⟨[.integer 1, .text [97, 108, 105, 99, 101]]⟩

/-- Row (2, "bob"). -/
def bobRow : Row := ⟨[.integer 2, .text [98, 111, 98]]⟩

/-- Row (1, "carol") — its primary key collides with `aliceRow`. -/
def carolRow : Row := ⟨[.integer 1, .text [99, 97, 114, 111, 108]]⟩

/-- Database state after an insert into `users` (identity on error). -/
def insStep (db : Database) (r : Row) : Database :=
  match db.executeInsert "users" r with
  | .ok x => x.1
  | .error _ => db

/-- State after inserting (1, "alice"). -/
def usersDb1 : Database := insStep usersDb0 aliceRow

/-- State after inserting (1, "alice") then (2, "bob"). -/
def usersDb2 : Database := insStep usersDb1 bobRow

/-- State after additionally inserting the duplicate (1, "carol"). -/
def usersDb3 : Database := insStep usersDb2 carolRow

/-- The transient warmed `users` table a command would operate on. -/
def usersTable (db : Database) : Table :=
  (db.openTable "users" usersSchema).load_index

/-- Filter `id = 1`. -/
def c4filter : Filter := ⟨"id", Operator.eq, Field.integer 1⟩

/-- Warmed `users` table holding only (1, "alice"). -/
def c4table : Table := usersTable usersDb1

/-- Table state after the Delete arm's loop ran over the targets of
`DELETE FROM users WHERE id = 1`. -/
def c4after : Table :=
  (deleteLoop c4table (c4table.compute_targets (some c4filter)) 0).1

/-- The success message of an executor result, `none` on error. -/
def execMessage (x : Except String (Database × QueryResult)) : Option String :=
  match x with
  | .ok (_, .message s) => some s
  | _ => none

/-- Filter `id = 2` for the Select fast-path witness. -/
def c3filter : Filter := ⟨"id", Operator.eq, Field.integer 2⟩

/-- Single-column schema `Text(1)` for the C2 counterexample. -/
def cexSchema : Schema := ⟨"t", [⟨"name", .text 1, false, false⟩]⟩

/-- Row whose text "ab" is longer than the column's `max_len = 1`. -/
def cexRow : Row := ⟨[.text [97, 98]]⟩

/-- Three-column schema exercising all data types. -/
def w2Schema : Schema :=
  ⟨"w", [⟨"id", .integer, true, false⟩, ⟨"on", .boolean, false, false⟩,
    ⟨"name", .text 5, false, false⟩]⟩

/-- Well-typed, fitting row for `w2Schema`. -/
def w2Row : Row := ⟨[.integer (-7), .boolean true, .text [104, 105]]⟩

/-- Schema with an autoincrement Integer primary key and a text column. -/
def autoSchema : Schema :=
  ⟨"t", [⟨"id", .integer, true, true⟩, ⟨"v", .text 4, false, false⟩]⟩

/-- Fresh database whose catalog holds `autoSchema` with counter 0. -/
def autoDb : Database := ⟨⟨[("t", autoSchema)], [("t", 0)]⟩, []⟩

/-- Result of preparing an arity-(N-1) insert into the autoincrement
table. -/
def autoPrep : Except String (Database × Row) :=
  autoDb.validate_and_prepare_row "t" [Field.text [97]]

/-- Database component of `autoPrep` (identity on error). -/
def autoDb1 : Database :=
  match autoPrep with
  | .ok x => x.1
  | .error _ => autoDb

/-- Row component of `autoPrep` (empty row on error). -/
def autoRow : Row :=
  match autoPrep with
  | .ok x => x.2
  | .error _ => ⟨[]⟩

/-- Table with one page whose slot 0 has been freed while slot 1 is live:
bitmap byte 2, row bytes of (2, "bob") in slot 1. -/
def c7table : Table :=
  ⟨⟨[⟨writeBytes (writeBytes (List.replicate PAGE_SIZE 0) 0 [2])
      (HEADER_SIZE + usersSchema.row_size) (bobRow.serialize usersSchema)⟩]⟩,
    usersSchema, PrimaryIndex.new⟩

/-- Column list with two primary-key columns. -/
def badColsA : List Column :=
  [⟨"a", .integer, true, false⟩, ⟨"b", .integer, true, false⟩]

/-- Column list whose autoincrement column is not an Integer. -/
def badColsB : List Column := [⟨"a", .boolean, false, true⟩]

/-- Completely empty database. -/
def emptyDb : Database := ⟨⟨[], []⟩, []⟩

/-! Helper lemmas. -/

theorem getD_set_self {α : Type} (l : List α) (n : Nat) (a d : α) (h : n < l.length) :
    (l.set n a).getD n d = a := by
  rw [List.getD_eq_getElem?_getD, List.getElem?_set_self', List.getElem?_eq_getElem h]
  simp

theorem getD_set_ne {α : Type} (l : List α) (n m : Nat) (a d : α) (h : n ≠ m) :
    (l.set n a).getD m d = l.getD m d := by
  simp [List.getD_eq_getElem?_getD, List.getElem?_set_ne h]

theorem getD_insertIdx_self {α : Type} (l : List α) (n : Nat) (a d : α) (h : n ≤ l.length) :
    (List.insertIdx n a l).getD n d = a := by
  rw [List.getD_eq_getElem?_getD,
    List.getElem?_eq_getElem (by rw [List.length_insertIdx _ _ h]; omega)]
  simp [List.getElem_insertIdx_self l a n h]

theorem take_append_of_length (l l2 : List Nat) (n : Nat) (h : l.length = n) :
    (l ++ l2).take n = l := by
  subst h
  exact List.take_left l l2

theorem drop_append_of_length (l l2 : List Nat) (n : Nat) (h : l.length = n) :
    (l ++ l2).drop n = l2 := by
  subst h
  exact List.drop_left l l2

theorem takeWhile_append_replicate_zero (bs : List Nat) (m : Nat)
    (h : bs.all (fun b => b != 0) = true) :
    (bs ++ List.replicate m 0).takeWhile (fun b => b != 0) = bs := by
  induction bs with
  | nil =>
    cases m with
    | zero => rfl
    | succ m => simp [List.replicate_succ, List.takeWhile_cons]
  | cons x xs ih =>
    simp only [List.all_cons, Bool.and_eq_true] at h
    simp [List.takeWhile_cons, h.1, ih h.2]

theorem testBit_255 (m : Nat) (h : m < 8) : Nat.testBit 255 m = true := by
  have h255 : (255 : Nat) = 2 ^ 8 - 1 := by norm_num
  rw [h255, Nat.testBit_two_pow_sub_one]
  simpa using h

theorem page_new_data_length : Page.new.data.length = PAGE_SIZE := by
  rw [show Page.new.data = List.replicate PAGE_SIZE 0 from rfl]
  exact List.length_replicate _ _

theorem set_slot_true (p : Page) (i : Nat) :
    p.set_slot i true = ⟨p.data.set (i / 8) (p.data.getD (i / 8) 0 ||| 1 <<< (i % 8))⟩ := rfl

theorem set_slot_false (p : Page) (i : Nat) :
    p.set_slot i false =
      ⟨p.data.set (i / 8) (p.data.getD (i / 8) 0 &&& (255 ^^^ 1 <<< (i % 8)))⟩ := rfl

theorem testBit_or_self (old m : Nat) : (old ||| 1 <<< m).testBit m = true := by
  rw [Nat.one_shiftLeft, Nat.testBit_lor, Nat.testBit_two_pow_self, Bool.or_true]

theorem testBit_and_mask_self (old m : Nat) (h : m < 8) :
    (old &&& (255 ^^^ 1 <<< m)).testBit m = false := by
  rw [Nat.one_shiftLeft, Nat.testBit_land, Nat.testBit_xor, testBit_255 _ h,
    Nat.testBit_two_pow_self]
  simp

theorem testBit_or_other (old m n : Nat) (h : n ≠ m) :
    (old ||| 1 <<< m).testBit n = old.testBit n := by
  rw [Nat.one_shiftLeft, Nat.testBit_lor,
    Nat.testBit_two_pow_of_ne (fun hx => h hx.symm), Bool.or_false]

theorem testBit_and_mask_other (old m n : Nat) (hn : n < 8) (h : n ≠ m) :
    (old &&& (255 ^^^ 1 <<< m)).testBit n = old.testBit n := by
  rw [Nat.one_shiftLeft, Nat.testBit_land, Nat.testBit_xor, testBit_255 _ hn,
    Nat.testBit_two_pow_of_ne (fun hx => h hx.symm)]
  simp

theorem i32_roundtrip (v : Int) (h1 : -2147483648 ≤ v) (h2 : v < 2147483648) :
    i32FromLeBytes ((v % 4294967296).toNat % 256) ((v % 4294967296).toNat / 256 % 256)
      ((v % 4294967296).toNat / 65536 % 256) ((v % 4294967296).toNat / 16777216 % 256) = v := by
  simp only [i32FromLeBytes]
  split <;> omega

theorem deserializeFields_integer_cons (cn : String) (cip cia : Bool) (cs : List Column)
    (a b c d : Nat) (rest : List Nat) :
    deserializeFields (⟨cn, DataType.integer, cip, cia⟩ :: cs) (a :: b :: c :: d :: rest) =
      Field.integer (i32FromLeBytes a b c d) :: deserializeFields cs rest := rfl

theorem deserializeFields_boolean_cons (cn : String) (cip cia : Bool) (cs : List Column)
    (a : Nat) (rest : List Nat) :
    deserializeFields (⟨cn, DataType.boolean, cip, cia⟩ :: cs) (a :: rest) =
      Field.boolean (a != 0) :: deserializeFields cs rest := rfl

theorem deserializeFields_text_cons (cn : String) (cip cia : Bool) (cs : List Column)
    (m : Nat) (bytes : List Nat) :
    deserializeFields (⟨cn, DataType.text m, cip, cia⟩ :: cs) bytes =
      Field.text ((bytes.take m).takeWhile (fun b => b != 0)) ::
        deserializeFields cs (bytes.drop m) := rfl

theorem serializeField_length (c : Column) (f : Field)
    (h : fieldMatchesType c.data_type f = true) :
    (serializeField c f).length = c.data_type.byte_size := by
  rcases c with ⟨cn, cdt, cip, cia⟩
  cases cdt <;> cases f <;>
    simp_all [fieldMatchesType, serializeField, i32ToLeBytes, DataType.byte_size]

theorem serializeFields_length (cs : List Column) (fs : List Field)
    (hlen : fs.length = cs.length)
    (h : (List.zip cs fs).all (fun cf => fieldMatchesType cf.1.data_type cf.2) = true) :
    (serializeFields cs fs).length = (cs.map (fun c => c.data_type.byte_size)).sum := by
  induction cs generalizing fs with
  | nil =>
    cases fs with
    | nil => rfl
    | cons f fs => simp at hlen
  | cons c cs ih =>
    cases fs with
    | nil => simp at hlen
    | cons f fs =>
      simp only [List.zip_cons_cons, List.all_cons, Bool.and_eq_true] at h
      simp only [serializeFields, List.length_append, List.map_cons, List.sum_cons]
      rw [serializeField_length c f h.1, ih fs (by simpa using hlen) h.2]

theorem deserializeFields_serializeFields (cs : List Column) (fs : List Field)
    (hlen : fs.length = cs.length)
    (h : (List.zip cs fs).all (fun cf => fieldMatchesType cf.1.data_type cf.2) = true)
    (hfit : (List.zip cs fs).all (fun cf => fieldFits cf.1.data_type cf.2) = true) :
    deserializeFields cs (serializeFields cs fs) = fs := by
  induction cs generalizing fs with
  | nil =>
    cases fs with
    | nil => rfl
    | cons f fs => simp at hlen
  | cons c cs ih =>
    cases fs with
    | nil => simp at hlen
    | cons f fs =>
      simp only [List.zip_cons_cons, List.all_cons, Bool.and_eq_true] at h hfit
      obtain ⟨hf, hrest⟩ := h
      obtain ⟨hff, hfrest⟩ := hfit
      have hlen' : fs.length = cs.length := by simpa using hlen
      have ihr := ih fs hlen' hrest hfrest
      rcases c with ⟨cn, cdt, cip, cia⟩
      cases cdt with
      | integer =>
        cases f with
        | integer v =>
          simp only [fieldMatchesType, Bool.and_eq_true, decide_eq_true_eq] at hf
          rw [show serializeFields (⟨cn, DataType.integer, cip, cia⟩ :: cs)
              (Field.integer v :: fs) =
              ((v % 4294967296).toNat % 256) :: ((v % 4294967296).toNat / 256 % 256) ::
              ((v % 4294967296).toNat / 65536 % 256) ::
              ((v % 4294967296).toNat / 16777216 % 256) :: serializeFields cs fs from rfl]
          rw [deserializeFields_integer_cons, i32_roundtrip v hf.1 hf.2, ihr]
        | boolean b => simp [fieldMatchesType] at hf
        | text bs => simp [fieldMatchesType] at hf
      | boolean =>
        cases f with
        | integer v => simp [fieldMatchesType] at hf
        | boolean b =>
          rw [show serializeFields (⟨cn, DataType.boolean, cip, cia⟩ :: cs)
              (Field.boolean b :: fs) =
              (if b then 1 else 0) :: serializeFields cs fs from rfl]
          rw [deserializeFields_boolean_cons, ihr]
          cases b <;> simp
        | text bs => simp [fieldMatchesType] at hf
      | text max_len =>
        cases f with
        | integer v => simp [fieldMatchesType] at hf
        | boolean b => simp [fieldMatchesType] at hf
        | text bs =>
          simp only [fieldFits, Bool.and_eq_true, decide_eq_true_eq] at hff
          obtain ⟨hlenb, hnz⟩ := hff
          have hmin : min max_len bs.length = bs.length := Nat.min_eq_right hlenb
          rw [show serializeFields (⟨cn, DataType.text max_len, cip, cia⟩ :: cs)
              (Field.text bs :: fs) =
              (bs.take (min max_len bs.length) ++
               List.replicate (max_len - min max_len bs.length) 0) ++
              serializeFields cs fs from rfl]
          rw [hmin, List.take_length]
          have hlen2 : (bs ++ List.replicate (max_len - bs.length) 0).length = max_len := by
            simp only [List.length_append, List.length_replicate]
            omega
          rw [deserializeFields_text_cons,
            take_append_of_length _ _ _ hlen2, drop_append_of_length _ _ _ hlen2,
            takeWhile_append_replicate_zero bs _ hnz, ihr]

/-! Claim theorems. -/

/-- C2, counterexample: the row holding the two-byte text "ab" is
well typed for the single-column schema `Text(1)`, yet serialization
truncates it to one byte, so `deserialize (serialize row)` returns the row
holding "a", not the original row: the claim as stated fails at this
input. -/
theorem c2_roundtrip_counterexample :
    rowMatchesSchema cexRow cexSchema = true ∧
    ¬ ((Row.serialize cexRow cexSchema).length = cexSchema.row_size ∧
       Row.deserialize (Row.serialize cexRow cexSchema) cexSchema = cexRow) := by
  decide

/-- C2, amended: for every row whose field tags match the schema's column
types, `serialize` produces exactly `row_size` bytes, and — provided every
Text field additionally fits its column (byte length at most `max_len`,
no zero byte) — `deserialize (serialize row schema) schema = row`. -/
theorem c2_serialize_roundtrip (r : Row) (s : Schema)
    (h : rowMatchesSchema r s = true) :
    (Row.serialize r s).length = s.row_size ∧
    (rowFits r s = true → Row.deserialize (Row.serialize r s) s = r) := by
  obtain ⟨fs⟩ := r
  simp only [rowMatchesSchema, Bool.and_eq_true, beq_iff_eq] at h
  obtain ⟨hlen, hall⟩ := h
  constructor
  · exact serializeFields_length s.columns fs hlen hall
  · intro hfit
    simp only [rowFits] at hfit
    show Row.deserialize (serializeFields s.columns fs) s = ⟨fs⟩
    unfold Row.deserialize
    rw [deserializeFields_serializeFields s.columns fs hlen hall hfit]

/-- C2, witness: the amended theorem applied to a concrete three-column
row. -/
theorem c2_serialize_roundtrip_witness :
    rowMatchesSchema w2Row w2Schema = true ∧
    ((Row.serialize w2Row w2Schema).length = w2Schema.row_size ∧
     (rowFits w2Row w2Schema = true →
       Row.deserialize (Row.serialize w2Row w2Schema) w2Schema = w2Row)) :=
  ⟨by decide, c2_serialize_roundtrip w2Row w2Schema (by decide)⟩

/-- C8: on a full-sized page, `set_slot i b` makes `is_slot_full i` return
`b`, leaves `is_slot_full j` unchanged for every other in-range slot `j`,
and modifies no byte of the page other than bitmap byte `i / 8`. -/
theorem c8_set_slot_frame (p : Page) (hlen : p.data.length = PAGE_SIZE) (b : Bool) (i j : Nat)
    (hi : i < 8 * HEADER_SIZE) (_hj : j < 8 * HEADER_SIZE) (hne : j ≠ i) :
    ((p.set_slot i b).is_slot_full i = b) ∧
    ((p.set_slot i b).is_slot_full j = p.is_slot_full j) ∧
    (∀ k, k ≠ i / 8 → (p.set_slot i b).data.getD k 0 = p.data.getD k 0) := by
  have hbyte : i / 8 < p.data.length := by
    rw [hlen]
    simp only [PAGE_SIZE]
    simp only [HEADER_SIZE] at hi
    omega
  have hbit : i % 8 < 8 := Nat.mod_lt i (by norm_num)
  have hjbit : j % 8 < 8 := Nat.mod_lt j (by norm_num)
  refine ⟨?_, ?_, ?_⟩
  · cases b with
    | true =>
      rw [set_slot_true]
      simp only [Page.is_slot_full]
      rw [getD_set_self _ _ _ _ hbyte, testBit_or_self]
    | false =>
      rw [set_slot_false]
      simp only [Page.is_slot_full]
      rw [getD_set_self _ _ _ _ hbyte, testBit_and_mask_self _ _ hbit]
  · by_cases hk : j / 8 = i / 8
    · have hbne : j % 8 ≠ i % 8 := by omega
      cases b with
      | true =>
        rw [set_slot_true]
        simp only [Page.is_slot_full, hk]
        rw [getD_set_self _ _ _ _ hbyte, testBit_or_other _ _ _ hbne]
      | false =>
        rw [set_slot_false]
        simp only [Page.is_slot_full, hk]
        rw [getD_set_self _ _ _ _ hbyte, testBit_and_mask_other _ _ _ hjbit hbne]
    · cases b with
      | true =>
        rw [set_slot_true]
        simp only [Page.is_slot_full]
        rw [getD_set_ne _ _ _ _ _ (fun hx => hk hx.symm)]
      | false =>
        rw [set_slot_false]
        simp only [Page.is_slot_full]
        rw [getD_set_ne _ _ _ _ _ (fun hx => hk hx.symm)]
  · intro k hk
    cases b with
    | true =>
      rw [set_slot_true]
      exact getD_set_ne _ _ _ _ _ (fun hx => hk hx.symm)
    | false =>
      rw [set_slot_false]
      exact getD_set_ne _ _ _ _ _ (fun hx => hk hx.symm)

/-- C8, witness: the theorem applied to the fresh page at slots 0 and 1. -/
theorem c8_set_slot_frame_witness :
    (Page.new.data.length = PAGE_SIZE ∧ 0 < 8 * HEADER_SIZE ∧ 1 < 8 * HEADER_SIZE ∧
      (1 : Nat) ≠ 0) ∧
    ((Page.new.set_slot 0 true).is_slot_full 0 = true ∧
     (Page.new.set_slot 0 true).is_slot_full 1 = Page.new.is_slot_full 1 ∧
     (∀ k, k ≠ 0 / 8 → (Page.new.set_slot 0 true).data.getD k 0 = Page.new.data.getD k 0)) :=
  ⟨⟨page_new_data_length, by decide, by decide, by decide⟩,
   c8_set_slot_frame Page.new page_new_data_length true 0 1
     (by decide) (by decide) (by decide)⟩

theorem firstSuchThat_eq_some (p : Nat → Bool) (fuel i x : Nat)
    (h : firstSuchThat p i fuel = some x) :
    p x = true ∧ i ≤ x ∧ x < i + fuel ∧ ∀ y, i ≤ y → y < x → p y = false := by
  induction fuel generalizing i with
  | zero => simp [firstSuchThat] at h
  | succ fuel ih =>
    cases hpi : p i with
    | true =>
      simp [firstSuchThat, hpi] at h
      subst h
      exact ⟨hpi, Nat.le_refl _, by omega, fun y hy1 hy2 => absurd hy1 (by omega)⟩
    | false =>
      simp only [firstSuchThat, hpi, Bool.false_eq_true, if_false] at h
      obtain ⟨h1, h2, h3, h4⟩ := ih (i + 1) h
      refine ⟨h1, by omega, by omega, ?_⟩
      intro y hy1 hy2
      rcases Nat.eq_or_lt_of_le hy1 with he | hlt
      · exact he ▸ hpi
      · exact h4 y (by omega) hy2

theorem firstSuchThat_eq_none (p : Nat → Bool) (fuel i : Nat)
    (h : firstSuchThat p i fuel = none) :
    ∀ y, i ≤ y → y < i + fuel → p y = false := by
  induction fuel generalizing i with
  | zero => intro y h1 h2; omega
  | succ fuel ih =>
    cases hpi : p i with
    | true => simp [firstSuchThat, hpi] at h
    | false =>
      simp only [firstSuchThat, hpi, Bool.false_eq_true, if_false] at h
      intro y hy1 hy2
      rcases Nat.eq_or_lt_of_le hy1 with he | hlt
      · exact he ▸ hpi
      · exact ih (i + 1) h y (by omega) (by omega)

theorem findFreePage_eq_some (pg : Pager) (ms : Nat) (fuel i p s : Nat)
    (h : findFreePage pg ms i fuel = some (p, s)) :
    i ≤ p ∧ p < i + fuel ∧ (pg.read_page p).first_free_slot ms = some s ∧
      ∀ q, i ≤ q → q < p → (pg.read_page q).first_free_slot ms = none := by
  induction fuel generalizing i with
  | zero => simp [findFreePage] at h
  | succ fuel ih =>
    cases hfs : (pg.read_page i).first_free_slot ms with
    | some s0 =>
      simp [findFreePage, hfs] at h
      obtain ⟨hp, hs⟩ := h
      subst hp
      subst hs
      exact ⟨Nat.le_refl _, by omega, hfs, fun q hq1 hq2 => absurd hq1 (by omega)⟩
    | none =>
      simp only [findFreePage, hfs] at h
      obtain ⟨h1, h2, h3, h4⟩ := ih (i + 1) h
      refine ⟨by omega, by omega, h3, ?_⟩
      intro q hq1 hq2
      rcases Nat.eq_or_lt_of_le hq1 with he | hlt
      · exact he ▸ hfs
      · exact h4 q (by omega) hq2

theorem findFreePage_eq_none (pg : Pager) (ms : Nat) (fuel i : Nat)
    (h : findFreePage pg ms i fuel = none) :
    ∀ q, i ≤ q → q < i + fuel → (pg.read_page q).first_free_slot ms = none := by
  induction fuel generalizing i with
  | zero => intro q h1 h2; omega
  | succ fuel ih =>
    cases hfs : (pg.read_page i).first_free_slot ms with
    | some s0 => simp [findFreePage, hfs] at h
    | none =>
      simp only [findFreePage, hfs] at h
      intro q hq1 hq2
      rcases Nat.eq_or_lt_of_le hq1 with he | hlt
      · exact he ▸ hfs
      · exact ih (i + 1) h q (by omega) (by omega)

/-- Every slot below `ms` of a page whose `first_free_slot` search failed is
full. -/
theorem first_free_slot_none_full (page : Page) (ms : Nat)
    (h : page.first_free_slot ms = none) :
    ∀ s, s < ms → page.is_slot_full s = true := by
  rw [Page.first_free_slot] at h
  intro s hs
  have := firstSuchThat_eq_none _ _ _ h s (Nat.zero_le s) (by omega)
  simpa using this

/-- C7: Table::insert_row writes to the lexicographically smallest free
(page, slot) position — the scan visits pages `0..num_pages` and slots
`0..max_slots` in ascending order and takes the first clear bitmap bit; when
every slot of every existing page is full it allocates a fresh page at
index `num_pages` with slot 0.  In particular a freed lowest-indexed slot
is reused before any page is created. -/
theorem c7_insert_lowest_free_slot (t : Table) (_h : 0 < t.schema.row_size) :
    (∀ p s, t.slot_free p s →
        t.insert_locate.1 < p ∨ (t.insert_locate.1 = p ∧ t.insert_locate.2 ≤ s)) ∧
    ((∃ p s, t.slot_free p s) → t.slot_free t.insert_locate.1 t.insert_locate.2) ∧
    ((∀ p s, ¬ t.slot_free p s) → t.insert_locate = (t.pager.num_pages, 0)) := by
  cases hf : findFreePage t.pager t.schema.max_slots 0 t.pager.num_pages with
  | some pos =>
    obtain ⟨p0, s0⟩ := pos
    simp only [Table.insert_locate, hf]
    obtain ⟨_, hp2, hp3, hp4⟩ := findFreePage_eq_some _ _ _ _ _ _ hf
    rw [Page.first_free_slot] at hp3
    obtain ⟨hq1, _, hq3, hq4⟩ := firstSuchThat_eq_some _ _ _ _ hp3
    have hfree0 : t.slot_free p0 s0 := by
      refine ⟨by omega, by omega, ?_⟩
      simpa using hq1
    refine ⟨?_, fun _ => hfree0, fun hall => absurd hfree0 (hall p0 s0)⟩
    intro p s hfree
    obtain ⟨hpn, hsn, hfull⟩ := hfree
    by_cases hpp : p0 = p
    · subst hpp
      right
      refine ⟨rfl, ?_⟩
      by_contra hss
      have hy := hq4 s (Nat.zero_le s) (by omega)
      simp [hfull] at hy
    · rcases Nat.lt_or_ge p p0 with hlt | hge
      · have hnone := hp4 p (Nat.zero_le p) hlt
        have := first_free_slot_none_full _ _ hnone s hsn
        rw [this] at hfull
        simp at hfull
      · left
        omega
  | none =>
    have hnone := findFreePage_eq_none _ _ _ _ hf
    have hall : ∀ p s, ¬ t.slot_free p s := by
      intro p s hfree
      obtain ⟨hpn, hsn, hfull⟩ := hfree
      have := first_free_slot_none_full _ _ (hnone p (Nat.zero_le p) (by omega)) s hsn
      rw [this] at hfull
      simp at hfull
    refine ⟨fun p s hfree => absurd hfree (hall p s),
      fun hex => ?_, fun _ => by simp [Table.insert_locate, hf]⟩
    obtain ⟨p, s, hfree⟩ := hex
    exact absurd hfree (hall p s)

/-- C7, witness: the theorem applied to a one-page table whose slot 0 has
been freed while slot 1 is live. -/
theorem c7_insert_lowest_free_slot_witness :
    (0 < c7table.schema.row_size) ∧
    ((∀ p s, c7table.slot_free p s →
        c7table.insert_locate.1 < p ∨
          (c7table.insert_locate.1 = p ∧ c7table.insert_locate.2 ≤ s)) ∧
     ((∃ p s, c7table.slot_free p s) →
        c7table.slot_free c7table.insert_locate.1 c7table.insert_locate.2) ∧
     ((∀ p s, ¬ c7table.slot_free p s) →
        c7table.insert_locate = (c7table.pager.num_pages, 0))) :=
  ⟨by decide, c7_insert_lowest_free_slot c7table (by decide)⟩

/-- C6: evaluation of the code at the failing condition — when the page
write-back of Table::insert_row fails, the function's `.unwrap()` at
storage/mod.rs line 53 turns the I/O error into a panic instead of
returning an error value, for every table and row. -/
theorem c6_insert_row_write_failure_panics (t : Table) (row : Row) :
    t.insert_row row false = InsertOutcome.panicked := rfl

set_option maxRecDepth 100000 in
/-- C1: evaluation of the code at the failing input — with the `users`
index warmed by load_index and already holding the stringified key "1",
executing the insert of (1, "carol") succeeds instead of returning a
duplicate-key error, and a subsequent scan returns three rows, two of them
with primary key 1: Table::insert_row never consults the index, although
the repository's own test (table_operations_tests.rs line 61) asserts that
this insert fails. -/
theorem c1_duplicate_insert_accepted :
    (usersTable usersDb2).index.contains_key (fieldKey (Field.integer 1)) = true ∧
    execMessage (usersDb2.executeInsert "users" carolRow) = some "Inserted 1 row" ∧
    (usersTable usersDb2).scan_rows = [aliceRow, bobRow] ∧
    (usersTable usersDb3).scan_rows = [aliceRow, bobRow, carolRow] := by
  decide

set_option maxRecDepth 100000 in
/-- C4: evaluation of the code at the failing input — the Delete arm
removes the Debug-formatted key "Integer(1)" from the index instead of the
stringified key "1", so after `delete_row` freed the slot the in-memory
index still contains the entry under the row's stringified primary key. -/
theorem c4_delete_removes_wrong_index_key :
    c4table.compute_targets (some c4filter) = [(0, 0, aliceRow)] ∧
    c4table.index.contains_key (fieldKey (Field.integer 1)) = true ∧
    (c4after.pager.read_page 0).is_slot_full 0 = false ∧
    c4after.index.contains_key (fieldKey (Field.integer 1)) = true ∧
    fieldDebugKey (Field.integer 1) ≠ fieldKey (Field.integer 1) ∧
    execMessage (usersDb1.executeDelete "users" (some c4filter)) =
      some "Deleted 1 rows." := by
  decide

/-- Table::load_index leaves the pager untouched. -/
theorem load_index_pager (t : Table) : t.load_index.pager = t.pager := by
  rcases hf : t.schema.columns.findIdx? (fun c => c.is_primary) with _ | ci <;>
    simp [Table.load_index, hf]

/-- Table::load_index leaves the schema untouched. -/
theorem load_index_schema (t : Table) : t.load_index.schema = t.schema := by
  rcases hf : t.schema.columns.findIdx? (fun c => c.is_primary) with _ | ci <;>
    simp [Table.load_index, hf]

/-- The target scan reads only the pager and the schema, never the index. -/
theorem compute_targets_index_irrel (pg : Pager) (sc : Schema) (ix1 ix2 : PrimaryIndex)
    (filter : Option Filter) :
    Table.compute_targets ⟨pg, sc, ix1⟩ filter = Table.compute_targets ⟨pg, sc, ix2⟩ filter := rfl

/-- Warming the index does not change which rows the target scan selects. -/
theorem compute_targets_load_index (t : Table) (filter : Option Filter) :
    t.load_index.compute_targets filter = t.compute_targets filter := by
  obtain ⟨pg, sc, ix⟩ := t
  rcases hf : sc.columns.findIdx? (fun c => c.is_primary) with _ | ci
  · simp [Table.load_index, hf]
  · simp only [Table.load_index]
    rw [hf]
    exact compute_targets_index_irrel pg sc _ ix filter

/-- When no live row passes the filter, the Update/Delete target scan is
empty. -/
theorem compute_targets_eq_nil (t : Table) (filter : Option Filter)
    (h : ∀ p s, p < t.pager.num_pages → s < t.schema.max_slots →
        (t.pager.read_page p).is_slot_full s = true →
        filterKeeps filter (t.get_row p s) t.schema = false) :
    t.compute_targets filter = [] := by
  unfold Table.compute_targets
  apply List.flatMap_eq_nil_iff.mpr
  intro p hp
  rw [List.mem_range] at hp
  apply List.filterMap_eq_nil_iff.mpr
  intro s hs
  rw [List.mem_range] at hs
  cases hfull : (t.pager.read_page p).is_slot_full s with
  | false => simp [hfull]
  | true => simp [hfull, h p s hp hs hfull]

/-- C9: when an Update command's filter matches no live row, the command
returns Ok with "Updated 0 rows." for every assignment list — including
assignments that target the primary-key column or name a column absent
from the schema — because the per-assignment checks run only inside the
loop over matched target rows. -/
theorem c9_update_no_match_returns_ok (db : Database) (tn : String)
    (assignments : List (String × Field)) (filter : Option Filter) (schema : Schema)
    (hs : assocGet db.catalog.tables tn = some schema)
    (hnm : ∀ p s, p < (db.openTable tn schema).pager.num_pages →
        s < schema.max_slots →
        ((db.openTable tn schema).pager.read_page p).is_slot_full s = true →
        filterKeeps filter (Table.get_row (db.openTable tn schema) p s) schema = false) :
    ∃ db1, db.executeUpdate tn assignments filter =
      .ok (db1, .message "Updated 0 rows.") := by
  have htargets : ((db.openTable tn schema).load_index).compute_targets filter = [] := by
    rw [compute_targets_load_index]
    exact compute_targets_eq_nil _ _ hnm
  refine ⟨db.putFile tn ((db.openTable tn schema).load_index).pager, ?_⟩
  simp only [Database.executeUpdate, hs]
  rw [htargets]
  simp only [applyUpdatesLoop]
  rfl

/-- C9, witness: the theorem applied to an Update whose assignments touch
the primary key and a nonexistent column, on a table with no rows. -/
theorem c9_update_no_match_witness :
    (assocGet usersDb0.catalog.tables "users" = some usersSchema) ∧
    (∃ db1, usersDb0.executeUpdate "users"
        [("id", Field.integer 5), ("missing", Field.integer 0)]
        (some ⟨"name", Operator.eq, Field.text [120]⟩) =
      .ok (db1, .message "Updated 0 rows.")) :=
  ⟨by decide,
   c9_update_no_match_returns_ok usersDb0 "users"
     [("id", Field.integer 5), ("missing", Field.integer 0)]
     (some ⟨"name", Operator.eq, Field.text [120]⟩) usersSchema (by decide)
     (fun p s hp _ _ => absurd hp (Nat.not_lt_zero p))⟩

theorem assocGet_assocInsert_self {α : Type} (l : List (String × α)) (k : String) (v : α) :
    assocGet (assocInsert l k v) k = some v := by
  induction l with
  | nil => simp [assocGet, assocInsert]
  | cons e es ih =>
    cases hbe : (e.1 == k) with
    | true =>
      have hany : ((e :: es).any fun x => x.1 == k) = true := by
        simp [List.any_cons, hbe]
      unfold assocInsert
      rw [if_pos hany, List.map_cons, if_pos hbe]
      unfold assocGet
      rw [List.find?_cons_of_pos _ (by simp)]
      rfl
    | false =>
      cases hae : es.any (fun x => x.1 == k) with
      | true =>
        have hany : ((e :: es).any fun x => x.1 == k) = true := by
          simp [List.any_cons, hbe, hae]
        unfold assocInsert
        rw [if_pos hany, List.map_cons, if_neg (by simp [hbe])]
        unfold assocGet
        rw [List.find?_cons_of_neg _ (by simp [hbe])]
        have ih' := ih
        unfold assocInsert at ih'
        rw [if_pos hae] at ih'
        unfold assocGet at ih'
        exact ih'
      | false =>
        have hany : ((e :: es).any fun x => x.1 == k) = false := by
          simp [List.any_cons, hbe, hae]
        unfold assocInsert
        rw [if_neg (by simp [hany]), List.cons_append]
        unfold assocGet
        rw [List.find?_cons_of_neg _ (by simp [hbe])]
        have ih' := ih
        unfold assocInsert at ih'
        rw [if_neg (by simp [hae])] at ih'
        unfold assocGet at ih'
        exact ih'

/-- Catalog::get_next_id returns `current + 1` (current defaulting to 0). -/
theorem get_next_id_fst (c : Catalog) (name : String) :
    (c.get_next_id name).1 = (assocGet c.sequences name).getD 0 + 1 := rfl

/-- Catalog::get_next_id stores the value it returns. -/
theorem get_next_id_stores (c : Catalog) (name : String) :
    assocGet (c.get_next_id name).2.sequences name =
      some ((assocGet c.sequences name).getD 0 + 1) := by
  simp only [Catalog.get_next_id]
  exact assocGet_assocInsert_self _ _ _

theorem findIdx?_some_bound {α : Type} (p : α → Bool) (l : List α) (j i : Nat)
    (h : List.findIdx? p l j = some i) : j ≤ i ∧ i < j + l.length := by
  induction l generalizing j with
  | nil => simp [List.findIdx?] at h
  | cons x xs ih =>
    rw [List.findIdx?_cons] at h
    by_cases hp : p x = true
    · rw [if_pos hp] at h
      simp only [Option.some.injEq] at h
      simp [List.length_cons]
      omega
    · rw [if_neg hp] at h
      have := ih (j + 1) h
      simp [List.length_cons]
      omega

theorem findIdx?_lt_length {α : Type} (p : α → Bool) (l : List α) (i : Nat)
    (h : l.findIdx? p = some i) : i < l.length := by
  have := findIdx?_some_bound p l 0 i h
  omega

/-- After `k` iterated get_next_id calls from counter 0 the stored counter
is `k`. -/
theorem iterNextId_counter (c : Catalog) (name : String) (k : Nat)
    (h0 : (assocGet c.sequences name).getD 0 = 0) :
    (assocGet (iterNextId c name k).sequences name).getD 0 = (k : Int) := by
  induction k with
  | zero => simpa [iterNextId] using h0
  | succ k ih =>
    show (assocGet ((iterNextId c name k).get_next_id name).2.sequences name).getD 0 = _
    rw [get_next_id_stores]
    simp [ih]

/-- C5: Catalog::get_next_id stores and returns `c + 1` (with `c = 0` when
the table has no counter yet); a successful prepared insert into a schema
with an autoincrement column carries `Integer (c + 1)` at the autoincrement
column's index — whether the caller supplied full arity (overridden) or one
less (inserted) — and leaves the counter at `c + 1`; hence after the
counter started at 0 the k-th issued value is `k`. -/
theorem c5_get_next_id_autoincrement :
    (∀ (c : Catalog) (name : String),
      (c.get_next_id name).1 = (assocGet c.sequences name).getD 0 + 1 ∧
      assocGet (c.get_next_id name).2.sequences name =
        some ((assocGet c.sequences name).getD 0 + 1)) ∧
    (∀ (db : Database) (tn : String) (schema : Schema) (provided : List Field)
        (auto_idx : Nat) (db1 : Database) (row : Row),
      assocGet db.catalog.tables tn = some schema →
      schema.columns.findIdx? (fun c => c.is_autoincrement) = some auto_idx →
      db.validate_and_prepare_row tn provided = .ok (db1, row) →
      row.fields.getD auto_idx (Field.integer 0) =
          Field.integer ((assocGet db.catalog.sequences tn).getD 0 + 1) ∧
        assocGet db1.catalog.sequences tn =
          some ((assocGet db.catalog.sequences tn).getD 0 + 1) ∧
        (provided.length = schema.columns.length ∨
          provided.length = schema.columns.length - 1)) ∧
    (∀ (c : Catalog) (name : String) (k : Nat),
      (assocGet c.sequences name).getD 0 = 0 →
      ((iterNextId c name k).get_next_id name).1 = (k : Int) + 1) := by
  refine ⟨fun c name => ⟨get_next_id_fst c name, get_next_id_stores c name⟩, ?_, ?_⟩
  · intro db tn schema provided auto_idx db1 row hs hauto hok
    have hbound : auto_idx < schema.columns.length :=
      findIdx?_lt_length _ _ _ hauto
    simp only [Database.validate_and_prepare_row, hs, hauto] at hok
    by_cases h1 : provided.length = schema.columns.length
    · have hb1 : (provided.length == schema.columns.length) = true := by simp [h1]
      rw [if_pos hb1] at hok
      dsimp only at hok
      have hne : ¬ (((provided.set auto_idx
          (Field.integer (db.catalog.get_next_id tn).1)).length !=
            schema.columns.length) = true) := by
        simp [List.length_set, h1]
      rw [if_neg hne] at hok
      cases hfind : (List.zip schema.columns (provided.set auto_idx
          (Field.integer (db.catalog.get_next_id tn).1))).find?
            (fun cf => !tagMatches cf.1.data_type cf.2) with
      | some cf =>
        rw [hfind] at hok
        exact absurd hok (by simp)
      | none =>
        rw [hfind] at hok
        simp only [Except.ok.injEq, Prod.mk.injEq] at hok
        obtain ⟨hdb, hrow⟩ := hok
        subst hdb
        subst hrow
        refine ⟨?_, get_next_id_stores db.catalog tn, Or.inl h1⟩
        show (provided.set auto_idx _).getD auto_idx _ = _
        rw [getD_set_self _ _ _ _ (by omega), get_next_id_fst]
    · have hb1 : ¬ ((provided.length == schema.columns.length) = true) := by simp [h1]
      rw [if_neg hb1] at hok
      by_cases h2 : provided.length = schema.columns.length - 1
      · have hb2 : (provided.length == schema.columns.length - 1) = true := by simp [h2]
        rw [if_pos hb2] at hok
        dsimp only at hok
        have hle : auto_idx ≤ provided.length := by omega
        have hne : ¬ (((List.insertIdx auto_idx
            (Field.integer (db.catalog.get_next_id tn).1) provided).length !=
              schema.columns.length) = true) := by
          rw [List.length_insertIdx _ _ hle]
          simp only [bne_iff_ne, ne_eq, not_not]
          omega
        rw [if_neg hne] at hok
        cases hfind : (List.zip schema.columns (List.insertIdx auto_idx
            (Field.integer (db.catalog.get_next_id tn).1) provided)).find?
              (fun cf => !tagMatches cf.1.data_type cf.2) with
        | some cf =>
          rw [hfind] at hok
          exact absurd hok (by simp)
        | none =>
          rw [hfind] at hok
          simp only [Except.ok.injEq, Prod.mk.injEq] at hok
          obtain ⟨hdb, hrow⟩ := hok
          subst hdb
          subst hrow
          refine ⟨?_, get_next_id_stores db.catalog tn, Or.inr h2⟩
          show (List.insertIdx auto_idx _ provided).getD auto_idx _ = _
          rw [getD_insertIdx_self _ _ _ _ hle, get_next_id_fst]
      · have hb2 : ¬ ((provided.length == schema.columns.length - 1) = true) := by simp [h2]
        rw [if_neg hb2] at hok
        exact absurd hok (by simp)
  · intro c name k h0
    rw [get_next_id_fst, iterNextId_counter c name k h0]

/-- C5, witness: the theorem's autoincrement clause applied to an
arity-(N-1) insert into a fresh table with counter 0. -/
theorem c5_get_next_id_autoincrement_witness :
    (assocGet autoDb.catalog.tables "t" = some autoSchema ∧
     autoSchema.columns.findIdx? (fun c => c.is_autoincrement) = some 0 ∧
     autoDb.validate_and_prepare_row "t" [Field.text [97]] = .ok (autoDb1, autoRow)) ∧
    (autoRow.fields.getD 0 (Field.integer 0) =
        Field.integer ((assocGet autoDb.catalog.sequences "t").getD 0 + 1) ∧
      assocGet autoDb1.catalog.sequences "t" =
        some ((assocGet autoDb.catalog.sequences "t").getD 0 + 1) ∧
      ([Field.text [97]].length = autoSchema.columns.length ∨
        [Field.text [97]].length = autoSchema.columns.length - 1)) :=
  ⟨⟨by decide, by decide, by decide⟩,
   c5_get_next_id_autoincrement.2.1 autoDb "t" autoSchema [Field.text [97]] 0 autoDb1 autoRow
     (by decide) (by decide) (by decide)⟩

/-- C10: CreateTable validates only the table name — a column list with two
primary-key columns, and one whose autoincrement column is a Boolean, are
both accepted: the schema lands in the catalog and the success message is
returned. -/
theorem c10_create_table_skips_column_validation :
    (badColsA.countP (fun c => c.is_primary) = 2 ∧
     emptyDb.executeCreateTable "t" badColsA =
       .ok (⟨⟨[("t", ⟨"t", badColsA⟩)], [("t", 0)]⟩, []⟩, .message "Table t created.")) ∧
    ((∃ c ∈ badColsB, c.is_autoincrement = true ∧ c.data_type ≠ DataType.integer) ∧
     emptyDb.executeCreateTable "u" badColsB =
       .ok (⟨⟨[("u", ⟨"u", badColsB⟩)], [("u", 0)]⟩, []⟩, .message "Table u created.")) := by
  decide

/-- The `used_index` flag of a selectFinish result is the flag it was
given. -/
theorem selectFinish_flag (cols : List Column) (rows : List Row) (u : Bool)
    (res : QueryResult) (b : Bool) (h : selectFinish cols rows u = .ok (res, b)) : b = u := by
  unfold selectFinish at h
  split at h <;> simp only [Except.ok.injEq, Prod.mk.injEq] at h <;> exact h.2.symm

/-- Every Ok result of the Select slow path carries `used_index = false`. -/
theorem selectSlowPath_flag (db : Database) (table : Table) (tn : String)
    (join : Option JoinClause) (filter : Option Filter) (res : QueryResult) (b : Bool)
    (h : db.selectSlowPath table tn join filter = .ok (res, b)) : b = false := by
  unfold Database.selectSlowPath at h
  rcases join with _ | j
  · exact selectFinish_flag _ _ _ _ _ h
  · dsimp only at h
    cases h1 : assocGet db.catalog.tables j.right_table with
    | none =>
      rw [h1] at h
      exact absurd h (by simp)
    | some rs =>
      rw [h1] at h
      dsimp only at h
      cases h2 : table.schema.columns.findIdx? (fun c => c.name == j.left_column) with
      | none =>
        rw [h2] at h
        exact absurd h (by simp)
      | some li =>
        rw [h2] at h
        dsimp only at h
        cases h3 : rs.columns.findIdx? (fun c => c.name == j.right_column) with
        | none =>
          rw [h3] at h
          exact absurd h (by simp)
        | some ri =>
          rw [h3] at h
          exact selectFinish_flag _ _ _ _ _ h

/-- C3: the Select arm takes the index fast path iff the join is absent, a
filter is present, the filter's column is the table's primary-key column
and the operator is equality; on that path it emits exactly the single row
the warmed index locates under the stringified filter value, and returns
`Message "No rows found."` when the key is absent from the index. -/
theorem c3_select_fast_path (db : Database) (tn : String) (join : Option JoinClause)
    (filter : Option Filter) (schema : Schema)
    (hs : assocGet db.catalog.tables tn = some schema) :
    (∀ res b, db.executeSelect tn join filter = .ok (res, b) →
        (b = true ↔ fastPathCond schema join filter)) ∧
    (∀ f, filter = some f → fastPathCond schema join filter →
      (∀ pos, ((db.openTable tn schema).load_index).index.get (fieldKey f.value) = some pos →
          db.executeSelect tn join filter =
            .ok (.data (schema.columns.map (fun c => c.name))
              [(((db.openTable tn schema).load_index).get_row pos.1 pos.2).fields], true)) ∧
      (((db.openTable tn schema).load_index).index.get (fieldKey f.value) = none →
          db.executeSelect tn join filter = .ok (.message "No rows found.", true))) := by
  constructor
  · intro res b hexec
    unfold Database.executeSelect at hexec
    rw [hs] at hexec
    dsimp only at hexec
    rcases join with _ | j
    · rcases filter with _ | f
      · have hb := selectSlowPath_flag _ _ _ _ _ _ _ hexec
        subst hb
        simp [fastPathCond]
      · cases hpk : schema.columns.find? (fun c => c.is_primary) with
        | none =>
          rw [hpk] at hexec
          dsimp only at hexec
          have hb := selectSlowPath_flag _ _ _ _ _ _ _ hexec
          subst hb
          constructor
          · intro hfalse
            exact absurd hfalse (by simp)
          · rintro ⟨-, f', hf', pk, hpk', -⟩
            rw [hpk] at hpk'
            exact absurd hpk' (by simp)
        | some pk =>
          rw [hpk] at hexec
          dsimp only at hexec
          cases hcond : (f.column_name == pk.name && f.operator == Operator.eq) with
          | true =>
            rw [if_pos hcond] at hexec
            have hb := selectFinish_flag _ _ _ _ _ hexec
            subst hb
            constructor
            · intro _
              simp only [Bool.and_eq_true, beq_iff_eq] at hcond
              exact ⟨rfl, f, rfl, pk, hpk, hcond.1, hcond.2⟩
            · intro _
              rfl
          | false =>
            rw [if_neg (by simp [hcond])] at hexec
            have hb := selectSlowPath_flag _ _ _ _ _ _ _ hexec
            subst hb
            constructor
            · intro hfalse
              exact absurd hfalse (by simp)
            · rintro ⟨-, f', hf', pk', hpk', hnm, hop⟩
              injection hf' with hff
              subst hff
              rw [hpk] at hpk'
              injection hpk' with hpkk
              subst hpkk
              rw [hnm, hop] at hcond
              simp at hcond
    · have hb := selectSlowPath_flag _ _ _ _ _ _ _ hexec
      subst hb
      constructor
      · intro hfalse
        exact absurd hfalse (by simp)
      · rintro ⟨hj, -⟩
        exact absurd hj (by simp)
  · intro f hf hcond
    obtain ⟨hjoin, f', hf', pk, hpk, hname, hop⟩ := hcond
    subst hjoin
    rw [hf] at hf'
    injection hf' with hff
    subst hff
    have hcondtrue : (f.column_name == pk.name && f.operator == Operator.eq) = true := by
      simp [hname, hop]
    subst hf
    constructor
    · intro pos hpos
      unfold Database.executeSelect
      rw [hs]
      dsimp only
      rw [hpk]
      dsimp only
      rw [if_pos hcondtrue, hpos]
      simp [selectFinish]
    · intro hpos
      unfold Database.executeSelect
      rw [hs]
      dsimp only
      rw [hpk]
      dsimp only
      rw [if_pos hcondtrue, hpos]
      simp [selectFinish]

/-- C3, witness: the theorem applied to `SELECT * FROM users WHERE id = 2`
with two rows on disk. -/
theorem c3_select_fast_path_witness :
    (assocGet usersDb2.catalog.tables "users" = some usersSchema) ∧
    ((∀ res b, usersDb2.executeSelect "users" none (some c3filter) = .ok (res, b) →
        (b = true ↔ fastPathCond usersSchema none (some c3filter))) ∧
     (∀ f, some c3filter = some f → fastPathCond usersSchema none (some c3filter) →
       (∀ pos, ((usersDb2.openTable "users" usersSchema).load_index).index.get
             (fieldKey f.value) = some pos →
           usersDb2.executeSelect "users" none (some c3filter) =
             .ok (.data (usersSchema.columns.map (fun c => c.name))
               [(((usersDb2.openTable "users" usersSchema).load_index).get_row
                   pos.1 pos.2).fields], true)) ∧
       (((usersDb2.openTable "users" usersSchema).load_index).index.get
             (fieldKey f.value) = none →
           usersDb2.executeSelect "users" none (some c3filter) =
             .ok (.message "No rows found.", true)))) :=
  ⟨by decide,
   c3_select_fast_path usersDb2 "users" none (some c3filter) usersSchema (by decide)⟩

end RDBMS
